import Mathlib

/-
Verification of the ticker-fetch-and-cache layer and the price-alert
evaluator of the Saori Indodax bot (src/saori_indodax_bot.py), as a
shallow embedding.  Network responses are modelled as a pure function
from request URL to response; the TTLCache and the alert dictionary are
threaded explicitly; wall-clock time is an explicit rational parameter.
Every observable action (HTTP request issued, notification sent,
subscription deleted) is recorded in an event trace.
-/

namespace Saori

/-! ## JSON values (the result of response.json()) -/

/-- JSON-like values as produced by Python's json parsing.  Numbers are
modelled exactly as rationals; every numeric literal evaluated in this
development is integral, where the Python float is exact. -/
inductive JVal where
  | jnull : JVal
  | jbool (b : Bool) : JVal
  | jnum (q : ℚ) : JVal
  | jstr (s : String) : JVal
  | jarr (elems : List JVal) : JVal
  | jobj (fields : List (String × JVal)) : JVal

/-- Python truthiness of a JSON value: nonzero number, nonempty
string/list/dict, True. -/
def pyTruthy : JVal → Bool
  | .jnull => false
  | .jbool b => b
  | .jnum q => q != 0
  | .jstr s => s.length != 0
  | .jarr elems => !elems.isEmpty
  | .jobj fields => !fields.isEmpty

/-- Dictionary field lookup, `data[k]` after a successful `k in data`
membership test on a dict. -/
def JVal.getField? : JVal → String → Option JVal
  | .jobj fields, k => (fields.find? (fun p => p.1 == k)).map (fun p => p.2)
  | _, _ => none

/-! ## Allow-list and endpoint templates (source lines 46-65) -/

/-- VALID_PAIRS of the source, lines 46-55: allow-listed pair symbols
with their display names. -/
def VALID_PAIRS : List (String × String) :=
  [("btcidr", "Bitcoin (BTC)"),
   ("ethidr", "Ethereum (ETH)"),
   ("ltcidr", "Litecoin (LTC)"),
   ("xrpidr", "Ripple (XRP)"),
   ("adaidr", "Cardano (ADA)"),
   ("dogidr", "Dogecoin (DOGE)"),
   ("shibidr", "Shiba Inu (SHIB)"),
   ("maticidr", "Polygon (MATIC)")]

/-- Membership test `pair in VALID_PAIRS` (dict key membership). -/
def validPair (pair : String) : Bool :=
  VALID_PAIRS.any (fun p => p.1 == pair)

/-- INDODAX_ENDPOINTS of the source, lines 61-65, verbatim.  Note that
none of the three template strings contains a replacement field. -/
def INDODAX_ENDPOINTS : List String :=
  ["https://indodax.com/api/ticker",
   "https://indodax.com/tapi/ticker",
   "https://api.indodax.com/ticker"]

/-! ## Python str.format -/

def lbraceChar : Char := Char.ofNat 123

def rbraceChar : Char := Char.ofNat 125

/-- Core of Python's `template.format(arg)` restricted to the automatic
replacement field (open brace immediately followed by close brace): each
such field is replaced by `arg`; all other characters are copied.  This
agrees with Python whenever the template has at most one replacement
field and no other brace characters, which holds for every template in
this repository (they contain zero fields). -/
def pyFormatCore (arg : List Char) : List Char → List Char
  | [] => []
  | c :: rest =>
    match rest with
    | [] => [c]
    | c2 :: rest2 =>
      if c = lbraceChar ∧ c2 = rbraceChar then arg ++ pyFormatCore arg rest2
      else c :: pyFormatCore arg (c2 :: rest2)

/-- Python `template.format(arg)` on the fragment used by the source. -/
def pyFormat (tmpl arg : String) : String :=
  String.mk (pyFormatCore arg.toList tmpl.toList)

/-- Source line 185: `url = endpoint_template.format(pair)`. -/
def buildUrl (tmpl pair : String) : String :=
  pyFormat tmpl pair

/-! ## Ticker cache (cachetools.TTLCache(maxsize=100, ttl=60), line 43) -/

def cacheTTL : ℚ := 60

def cacheMaxSize : ℕ := 100

structure CacheEntry where
  pair : String
  snap : JVal
  insertedAt : ℚ

/-- The TTLCache contents, oldest insertion first. -/
abbrev Cache := List CacheEntry

/-- Combined `pair in cache` / `cache[pair]` of TTLCache: an entry is
served only while its age is strictly below the TTL. -/
def cacheGet (c : Cache) (now : ℚ) (pair : String) : Option JVal :=
  (c.find? (fun e => e.pair == pair && decide (now - e.insertedAt < cacheTTL))).map
    (fun e => e.snap)

/-- `cache[pair] = v` of TTLCache: overwrite any entry for the key,
append with a fresh timestamp, and evict the oldest entry if the size
bound is exceeded. -/
def cachePut (c : Cache) (now : ℚ) (pair : String) (v : JVal) : Cache :=
  let c' := (c.filter (fun e => e.pair != pair)) ++ [⟨pair, v, now⟩]
  if cacheMaxSize < c'.length then c'.tail else c'

/-! ## Network model -/

/-- Outcome of one HTTP GET: `failure` collapses every path the source
treats identically by `continue` at lines 218-232 (timeout, connection
error, non-2xx status, JSON decode error, unexpected exception);
`success` is a 2xx response with its parsed JSON body. -/
inductive NetResponse where
  | failure : NetResponse
  | success (data : JVal) : NetResponse

/-- A pure network: the response each URL yields during one scenario. -/
abbrev Net := String → NetResponse

/-- Acceptance test on a ticker object (source lines 204-208): the
object must carry a present, truthy `last` field.  When the ticker value
is not a dict the source either finds no `last` member or raises a
TypeError swallowed by the generic except clause — both reject. -/
def tickerLastOk (tv : JVal) : Option JVal :=
  match tv with
  | .jobj _ =>
    match tv.getField? "last" with
    | some lv => if pyTruthy lv then some tv else none
    | none => none
  | _ => none

/-- Flat-shape acceptance (source lines 210-214): the top-level object
itself must carry a present, truthy `last` field; on acceptance the
whole object is the snapshot. -/
def flatLastOk (data : JVal) : Option JVal :=
  match data.getField? "last" with
  | some lv => if pyTruthy lv then some data else none
  | none => none

/-- Response-body acceptance of get_ticker_data (source lines 201-216):
prefer a truthy `ticker` object with truthy `last`; if `ticker` is
absent or falsy, accept a flat object with truthy `last`; reject
everything else.  A non-dict body always falls through to the next
endpoint in the source (membership test false, or TypeError swallowed),
so it is rejected here. -/
def extractSnapshot (data : JVal) : Option JVal :=
  match data with
  | .jobj fields =>
    match (fields.find? (fun p => p.1 == "ticker")).map (fun p => p.2) with
    | some tv => if pyTruthy tv then tickerLastOk tv else flatLastOk data
    | none => flatLastOk data
  | _ => none

/-- What one endpoint yields for a pair under a given network: the
accepted snapshot, or `none` for any of the failure/rejection paths. -/
def endpointResult (net : Net) (tmpl pair : String) : Option JVal :=
  match net (buildUrl tmpl pair) with
  | .failure => none
  | .success data => extractSnapshot data

/-- The endpoint loop of get_ticker_data (source lines 183-232): try the
templates in order; on the first accepted snapshot store it in the cache
and return immediately; otherwise continue.  Returns the result, the
updated cache, and the list of URLs requested, in request order. -/
def tryEndpoints (net : Net) (now : ℚ) (pair : String) (cache : Cache) :
    List String → Option JVal × Cache × List String
  | [] => (none, cache, [])
  | tmpl :: rest =>
    let url := buildUrl tmpl pair
    match endpointResult net tmpl pair with
    | some snap => (some snap, cachePut cache now pair snap, [url])
    | none =>
      let r := tryEndpoints net now pair cache rest
      (r.1, r.2.1, url :: r.2.2)

/-- get_ticker_data (source lines 172-235): reject pairs outside the
allow-list with no network call; serve a fresh cache entry with no
network call; otherwise sweep the endpoints.  `none` plays the role of
the Python `None` return (InvalidPair or AllEndpointsFailed). -/
def get_ticker_data (net : Net) (cache : Cache) (now : ℚ) (pair : String) :
    Option JVal × Cache × List String :=
  if validPair pair then
    match cacheGet cache now pair with
    | some v => (some v, cache, [])
    | none => tryEndpoints net now pair cache INDODAX_ENDPOINTS
  else (none, cache, [])

/-! ## Python float values and float() parsing -/

/-- A Python float as far as the bot observes it: an exact finite value,
the two infinities, or nan.  Finite values are rationals; every literal
this development evaluates is integral, where the Python float is
exact. -/
inductive PyFloat where
  | finite (q : ℚ)
  | inf
  | ninf
  | nan
  deriving DecidableEq, Repr

/-- ASCII whitespace for the surrounding-whitespace stripping of
float() and str.strip(). -/
def isSpaceChar (c : Char) : Bool :=
  c == ' ' || (9 ≤ c.toNat && c.toNat ≤ 13)

def trimChars (cs : List Char) : List Char :=
  ((cs.dropWhile isSpaceChar).reverse.dropWhile isSpaceChar).reverse

/-- Lowercasing a string characterwise (str.lower on the ASCII
fragment the bot sees). -/
def strToLower (s : String) : String :=
  String.mk (s.toList.map Char.toLower)

/-- Split a character list on a separator character. -/
def splitChar (sep : Char) : List Char → List (List Char)
  | [] => [[]]
  | c :: rest =>
    let r := splitChar sep rest
    if c == sep then [] :: r
    else
      match r with
      | [] => [[c]]
      | g :: gs => (c :: g) :: gs

def digitsToNat (cs : List Char) : ℕ :=
  cs.foldl (fun acc c => acc * 10 + (c.toNat - 48)) 0

def allDigits (cs : List Char) : Bool :=
  cs.all (fun c => c.isDigit)

/-- Unsigned numeric core of float(): digits with an optional single
decimal point and at least one digit overall.  Exponents, underscores
and hex floats are outside the fragment this development evaluates. -/
def parseUnsignedCore (t : List Char) : Option ℚ :=
  match splitChar '.' t with
  | [a] =>
    if 0 < a.length ∧ allDigits a then some ((digitsToNat a : ℚ))
    else none
  | [a, b] =>
    if 0 < a.length + b.length ∧ allDigits a ∧ allDigits b then
      some ((digitsToNat a : ℚ) + (digitsToNat b : ℚ) / ((10 : ℚ) ^ b.length))
    else none
  | _ => none

def parseSignless (u : List Char) (neg : Bool) : Option PyFloat :=
  if u == "inf".toList ∨ u == "infinity".toList then
    some (if neg then PyFloat.ninf else PyFloat.inf)
  else if u == "nan".toList then some PyFloat.nan
  else (parseUnsignedCore u).map (fun q => PyFloat.finite (if neg then -q else q))

/-- Python's float(s) on the fragment the bot sees: optional surrounding
whitespace, optional sign, then digits/point or the words inf, infinity,
nan in any case.  `none` models the ValueError. -/
def parsePyFloat (s : String) : Option PyFloat :=
  match (trimChars s.toList).map Char.toLower with
  | '-' :: rest => parseSignless rest true
  | '+' :: rest => parseSignless rest false
  | t => parseSignless t false

/-- IEEE-style `a >= b` on Python floats: any comparison with nan is
false; infinities compare as expected; finite values compare exactly. -/
def PyFloat.ge : PyFloat → PyFloat → Bool
  | .nan, _ => false
  | _, .nan => false
  | .inf, _ => true
  | .ninf, .ninf => true
  | .ninf, _ => false
  | .finite _, .inf => false
  | .finite _, .ninf => true
  | .finite a, .finite b => decide (b ≤ a)

/-- `float(x)` on a JSON value, as used on ticker['last'] at source line
730: numbers and booleans convert, strings are parsed, anything else
raises a TypeError, modelled by `none`. -/
def jvalToFloat : JVal → Option PyFloat
  | .jnum q => some (.finite q)
  | .jbool b => some (.finite (if b then 1 else 0))
  | .jstr s => parsePyFloat s
  | _ => none

/-! ## Alert registry (the `alerts` dict, source line 58) -/

structure Subscription where
  pair : String
  target : PyFloat
  deriving DecidableEq, Repr

/-- The `alerts` dict: subscriber chat id to subscription, in dict
insertion order. -/
abbrev AlertReg := List (ℕ × Subscription)

/-- Dict assignment `alerts[uid] = sub` (source line 660): update in
place if the key is present, else append. -/
def regSet : AlertReg → ℕ → Subscription → AlertReg
  | [], uid, sub => [(uid, sub)]
  | e :: rest, uid, sub =>
    if e.1 == uid then (uid, sub) :: rest else e :: regSet rest uid sub

/-- Dict deletion `del alerts[uid]` (source line 747). -/
def regRemove (reg : AlertReg) (uid : ℕ) : AlertReg :=
  reg.filter (fun e => e.1 != uid)

def regHas (reg : AlertReg) (uid : ℕ) : Bool :=
  reg.any (fun e => e.1 == uid)

/-- The registry never holds two subscriptions for one subscriber. -/
def regKeysUnique (reg : AlertReg) : Prop :=
  (reg.map Prod.fst).Nodup

/-! ## The /alert command (source lines 633-671) -/

/-- Observable outcome of the /alert command handler: each constructor
is one of the early-return replies of the source, plus acceptance. -/
inductive AlertOutcome where
  | usageError
  | invalidPairReply
  | notANumberReply
  | accepted
  deriving DecidableEq, Repr

/-- The /alert command handler (source lines 633-671): with fewer than
two arguments reply with usage; lowercase the pair and validate it
against the allow-list; parse the target with float(), replying
"Harga harus berupa angka" on ValueError; then store the subscription,
overwriting any prior one for the subscriber.  No positivity or
finiteness check is performed on the parsed target. -/
def alertCommand (reg : AlertReg) (uid : ℕ) (args : List String) :
    AlertOutcome × AlertReg :=
  if args.length < 2 then (.usageError, reg)
  else
    let pair := strToLower (args.getD 0 "")
    if validPair pair then
      match parsePyFloat (args.getD 1 "") with
      | none => (.notANumberReply, reg)
      | some t => (.accepted, regSet reg uid ⟨pair, t⟩)
    else (.invalidPairReply, reg)

/-! ## The alert evaluator check_alerts (source lines 719-752) -/

/-- Observable events of one evaluator cycle, in program order. -/
inductive BotEvent where
  | fetchCall (pair : String)
  | request (url : String)
  | notify (uid : ℕ) (pair : String)
  | removeSub (uid : ℕ)
  deriving DecidableEq, Repr

/-- One subscription's processing inside the evaluator loop body
(source lines 727-752), minus the registry mutation: whether the alert
triggers, the cache after the fetch, and the URLs requested.  The
trigger is `float(ticker['last']) >= target` (lines 730-731); a missing
`last` key or an unconvertible value raises inside the try and the
except clause keeps the subscription, modelled as no trigger. -/
def stepOutcome (net : Net) (now : ℚ) (cache : Cache) (sub : Subscription) :
    Bool × Cache × List String :=
  let r := get_ticker_data net cache now sub.pair
  match r.1 with
  | none => (false, r.2.1, r.2.2)
  | some ticker =>
    match (ticker.getField? "last").bind jvalToFloat with
    | none => (false, r.2.1, r.2.2)
    | some cur => (cur.ge sub.target, r.2.1, r.2.2)

/-- The evaluator loop over the snapshot `list(alerts.items())` taken at
entry (source line 726), threading the live registry and the cache.  On
a trigger the notification is sent first and the subscription deleted
afterwards (lines 736-747), in that order in the event trace. -/
def checkAlertsAux (net : Net) (now : ℚ) :
    List (ℕ × Subscription) → AlertReg → Cache → AlertReg × Cache × List BotEvent
  | [], reg, cache => (reg, cache, [])
  | (uid, sub) :: rest, reg, cache =>
    let s := stepOutcome net now cache sub
    let head := BotEvent.fetchCall sub.pair :: s.2.2.map BotEvent.request
    if s.1 then
      let t := checkAlertsAux net now rest (regRemove reg uid) s.2.1
      (t.1, t.2.1,
        head ++ BotEvent.notify uid sub.pair :: BotEvent.removeSub uid :: t.2.2)
    else
      let t := checkAlertsAux net now rest reg s.2.1
      (t.1, t.2.1, head ++ t.2.2)

/-- check_alerts (source lines 719-752): iterate over a snapshot of the
registry taken at entry.  The empty-registry early return at line 721 is
the base case. -/
def check_alerts (net : Net) (reg : AlertReg) (cache : Cache) (now : ℚ) :
    AlertReg × Cache × List BotEvent :=
  checkAlertsAux net now reg reg cache

/-! ## Concrete scenarios used by witnesses and counterexamples -/

/-- A nested-shape response body with last price 1,000,000. -/
def nestedBody : JVal :=
  JVal.jobj [("ticker", JVal.jobj [("last", JVal.jstr "1000000"), ("high", JVal.jstr "1100000")])]

/-- The ticker object inside nestedBody. -/
def nestedTicker : JVal :=
  JVal.jobj [("last", JVal.jstr "1000000"), ("high", JVal.jstr "1100000")]

/-- A flat-shape response body whose truthy `last` is not numeric. -/
def badFlatBody : JVal :=
  JVal.jobj [("last", JVal.jstr "abc")]

/-- Scenario: the first endpoint answers with the nested body, the other
endpoints fail. -/
def netFirstOk : Net := fun url =>
  if url == "https://indodax.com/api/ticker" then .success nestedBody else .failure

/-- Scenario: the first endpoint fails, the second answers with the
nested body, the third fails. -/
def netSecondOk : Net := fun url =>
  if url == "https://indodax.com/tapi/ticker" then .success nestedBody else .failure

/-- Scenario: every endpoint fails. -/
def netAllFail : Net := fun _ => .failure

/-- Scenario: the first endpoint answers with the non-numeric flat body,
the other endpoints fail. -/
def netBadFlat : Net := fun url =>
  if url == "https://indodax.com/api/ticker" then .success badFlatBody else .failure

/-- Recognizer for a notification event addressed to one subscriber. -/
def isNotifyFor (uid : ℕ) : BotEvent → Bool
  | .notify u _ => u == uid
  | _ => false

/-- Number of notifications sent to a subscriber during a trace. -/
def notifyCount (tr : List BotEvent) (uid : ℕ) : ℕ :=
  tr.countP (isNotifyFor uid)

/-- Recognizer for an invocation of the Ticker Fetcher. -/
def isFetchCall : BotEvent → Bool
  | .fetchCall _ => true
  | _ => false

/-- Recognizer for an HTTP request event. -/
def isRequest : BotEvent → Bool
  | .request _ => true
  | _ => false

/-- A snapshot carries a present, truthy `last` field — the validity
check get_ticker_data actually performs before caching or returning. -/
def hasTruthyLast (v : JVal) : Bool :=
  match v.getField? "last" with
  | some lv => pyTruthy lv
  | none => false

/-- Every snapshot stored in the cache carries a truthy `last`. -/
def cacheGood (c : Cache) : Prop :=
  ∀ e ∈ c, hasTruthyLast e.snap = true

/-! ## General lemmas about the cache and the endpoint sweep -/

theorem find?_append_of_left_none {α : Type} {p : α → Bool} {l₁ l₂ : List α}
    (h : ∀ x ∈ l₁, p x = false) : (l₁ ++ l₂).find? p = l₂.find? p := by
  rw [List.find?_append, List.find?_eq_none.mpr, Option.none_or]
  intro x hx
  simp [h x hx]

theorem cacheGet_cachePut_fresh (c : Cache) (t0 t1 : ℚ) (pair : String) (v : JVal)
    (h : t1 - t0 < cacheTTL) :
    cacheGet (cachePut c t0 pair v) t1 pair = some v := by
  unfold cachePut cacheGet
  have hpred : ∀ e ∈ c.filter (fun e => e.pair != pair),
      (e.pair == pair && decide (t1 - e.insertedAt < cacheTTL)) = false := by
    intro e he
    have h2 := List.of_mem_filter he
    simp only [bne_iff_ne, ne_eq] at h2
    simp [h2]
  have hentry :
      ((⟨pair, v, t0⟩ : CacheEntry).pair == pair
        && decide (t1 - (⟨pair, v, t0⟩ : CacheEntry).insertedAt < cacheTTL)) = true := by
    simp [h]
  dsimp only
  split
  case isTrue hlen =>
    rcases hfl : c.filter (fun e => e.pair != pair) with _ | ⟨x, xs⟩
    · rw [hfl] at hlen
      simp [cacheMaxSize] at hlen
    · rw [hfl] at hpred ⊢
      simp only [List.cons_append, List.tail_cons]
      rw [find?_append_of_left_none (fun e he => hpred e (List.mem_cons_of_mem x he))]
      simp [List.find?, h]
  case isFalse hlen =>
    rw [find?_append_of_left_none hpred]
    simp [List.find?, h]

/-! ## Claim theorems -/

/-- C1: the claim says a cache-miss fetch substitutes the pair symbol
into each endpoint template, so different pairs yield different,
pair-specific request URLs.  The endpoint templates contain no
replacement field, so `endpoint_template.format(pair)` returns the
template unchanged: every pair is fetched from the identical three
URLs, contradicting the claim.  The spec's intent (substitute the pair)
is clear from the source calling .format(pair), which is purposeless on
a placeholder-free template — a code bug. -/
theorem c1_urls_not_pair_specific :
    INDODAX_ENDPOINTS.map (fun t => buildUrl t "btcidr")
        = INDODAX_ENDPOINTS.map (fun t => buildUrl t "ethidr")
      ∧ INDODAX_ENDPOINTS.map (fun t => buildUrl t "btcidr") = INDODAX_ENDPOINTS := by
  exact ⟨rfl, rfl⟩

/-- C8: for every pair outside the allow-list, get_ticker_data fails
immediately with the None result (InvalidPair), issues no request and
leaves the cache unchanged. -/
theorem c8_invalid_pair_rejected (net : Net) (cache : Cache) (now : ℚ) (pair : String)
    (h : validPair pair = false) :
    get_ticker_data net cache now pair = (none, cache, []) := by
  unfold get_ticker_data
  rw [h]
  rfl

/-- Witness for C8 at the concrete pair "solidr". -/
theorem c8_invalid_pair_rejected_witness :
    validPair "solidr" = false ∧
      get_ticker_data netAllFail [] 0 "solidr" = (none, [], []) :=
  ⟨by decide, c8_invalid_pair_rejected netAllFail [] 0 "solidr" (by decide)⟩

/-- C7: for every valid pair, a fetch issued while the just-stored
cache entry's age is within the TTL returns exactly the stored snapshot,
leaves the cache as it was after the put, and issues no request. -/
theorem c7_cache_hit_within_ttl (net : Net) (cache : Cache) (t0 t1 : ℚ)
    (pair : String) (snap : JVal)
    (hv : validPair pair = true)
    (hage0 : 0 ≤ t1 - t0) (hage1 : t1 - t0 < cacheTTL) :
    get_ticker_data net (cachePut cache t0 pair snap) t1 pair
      = (some snap, cachePut cache t0 pair snap, []) := by
  unfold get_ticker_data
  rw [hv, cacheGet_cachePut_fresh cache t0 t1 pair snap hage1]
  rfl

/-- Witness for C7: put at time 0, get at time 30, pair "btcidr". -/
theorem c7_cache_hit_within_ttl_witness :
    validPair "btcidr" = true ∧ (0 : ℚ) ≤ 30 - 0 ∧ (30 : ℚ) - 0 < cacheTTL ∧
      get_ticker_data netAllFail (cachePut [] 0 "btcidr" nestedTicker) 30 "btcidr"
        = (some nestedTicker, cachePut [] 0 "btcidr" nestedTicker, []) :=
  ⟨by decide, by norm_num, by norm_num [cacheTTL],
    c7_cache_hit_within_ttl netAllFail [] 0 30 "btcidr" nestedTicker
      (by decide) (by norm_num) (by norm_num [cacheTTL])⟩

theorem tryEndpoints_all_fail (net : Net) (now : ℚ) (pair : String) (cache : Cache) :
    ∀ l : List String, (∀ tmpl ∈ l, endpointResult net tmpl pair = none) →
      tryEndpoints net now pair cache l = (none, cache, l.map (fun t => buildUrl t pair))
  | [], _ => rfl
  | tmpl :: rest, h => by
    have h0 : endpointResult net tmpl pair = none := h tmpl (List.mem_cons_self tmpl rest)
    have ih := tryEndpoints_all_fail net now pair cache rest
      (fun t ht => h t (List.mem_cons_of_mem tmpl ht))
    simp only [tryEndpoints, h0, ih, List.map_cons]

theorem tryEndpoints_cache_unchanged_of_none (net : Net) (now : ℚ) (pair : String)
    (cache : Cache) :
    ∀ l : List String, (tryEndpoints net now pair cache l).1 = none →
      (tryEndpoints net now pair cache l).2.1 = cache
  | [], _ => rfl
  | tmpl :: rest, h => by
    by_cases hr : ∃ snap, endpointResult net tmpl pair = some snap
    · obtain ⟨snap, hs⟩ := hr
      simp only [tryEndpoints, hs] at h
      exact Option.noConfusion h
    · have hn : endpointResult net tmpl pair = none := by
        cases he : endpointResult net tmpl pair
        · rfl
        · exact absurd ⟨_, he⟩ hr
      simp only [tryEndpoints, hn] at h ⊢
      exact tryEndpoints_cache_unchanged_of_none net now pair cache rest h

/-- C5: on a cache miss for a valid pair the endpoints are swept in
their fixed order; when the first endpoint fails and the second yields
a valid snapshot, the fetch returns the second endpoint's snapshot,
stores it in the cache, and the request log is exactly the first two
URLs — the third endpoint is never queried. -/
theorem c5_fallback_short_circuit (net : Net) (cache : Cache) (now : ℚ)
    (pair : String) (snap : JVal)
    (hv : validPair pair = true)
    (hm : cacheGet cache now pair = none)
    (h1 : endpointResult net "https://indodax.com/api/ticker" pair = none)
    (h2 : endpointResult net "https://indodax.com/tapi/ticker" pair = some snap) :
    get_ticker_data net cache now pair
      = (some snap, cachePut cache now pair snap,
         [buildUrl "https://indodax.com/api/ticker" pair,
          buildUrl "https://indodax.com/tapi/ticker" pair]) := by
  unfold get_ticker_data
  rw [hv, hm]
  simp only [INDODAX_ENDPOINTS, tryEndpoints, h1, h2]
  simp

/-- Witness for C5: scenario netSecondOk at pair "btcidr" on the empty
cache. -/
theorem c5_fallback_short_circuit_witness :
    validPair "btcidr" = true ∧
      cacheGet [] 0 "btcidr" = none ∧
      endpointResult netSecondOk "https://indodax.com/api/ticker" "btcidr" = none ∧
      endpointResult netSecondOk "https://indodax.com/tapi/ticker" "btcidr" = some nestedTicker ∧
      get_ticker_data netSecondOk [] 0 "btcidr"
        = (some nestedTicker, cachePut [] 0 "btcidr" nestedTicker,
           [buildUrl "https://indodax.com/api/ticker" "btcidr",
            buildUrl "https://indodax.com/tapi/ticker" "btcidr"]) :=
  ⟨by decide, rfl, rfl, rfl,
    c5_fallback_short_circuit netSecondOk [] 0 "btcidr" nestedTicker
      (by decide) rfl rfl rfl⟩

/-- C6: for a valid pair on a cache miss, when every endpoint fails to
yield a valid snapshot the fetch returns None (AllEndpointsFailed) after
requesting all three URLs and the cache is unchanged; and in general a
fetch that returns None never mutates the cache — the cache is mutated
only on a successful fetch. -/
theorem c6_all_fail_nothing_cached (net : Net) (cache : Cache) (now : ℚ) (pair : String)
    (hv : validPair pair = true)
    (hm : cacheGet cache now pair = none)
    (hall : ∀ tmpl ∈ INDODAX_ENDPOINTS, endpointResult net tmpl pair = none) :
    get_ticker_data net cache now pair
        = (none, cache, INDODAX_ENDPOINTS.map (fun t => buildUrl t pair))
      ∧ ∀ (net' : Net) (cache' : Cache) (now' : ℚ) (pair' : String),
          (get_ticker_data net' cache' now' pair').1 = none →
          (get_ticker_data net' cache' now' pair').2.1 = cache' := by
  constructor
  · unfold get_ticker_data
    rw [hv, hm]
    exact tryEndpoints_all_fail net now pair cache INDODAX_ENDPOINTS hall
  · intro net' cache' now' pair' hnone
    unfold get_ticker_data at hnone ⊢
    by_cases hvp : validPair pair'
    · rw [hvp, if_pos rfl] at hnone ⊢
      cases hc : cacheGet cache' now' pair'
      · rw [hc] at hnone
        exact tryEndpoints_cache_unchanged_of_none net' now' pair' cache' _ hnone
      · rw [hc] at hnone
    · have hvp' : validPair pair' = false := by
        simpa using hvp
      rw [hvp', if_neg (by simp)]

/-- Witness for C6: scenario netAllFail at pair "btcidr" on the empty
cache. -/
theorem c6_all_fail_nothing_cached_witness :
    validPair "btcidr" = true ∧
      cacheGet [] 0 "btcidr" = none ∧
      (∀ tmpl ∈ INDODAX_ENDPOINTS, endpointResult netAllFail tmpl "btcidr" = none) ∧
      get_ticker_data netAllFail [] 0 "btcidr"
        = (none, [], INDODAX_ENDPOINTS.map (fun t => buildUrl t "btcidr")) :=
  ⟨by decide, rfl,
    fun tmpl _ => rfl,
    (c6_all_fail_nothing_cached netAllFail [] 0 "btcidr" (by decide) rfl
      (fun tmpl _ => rfl)).1⟩

/-- C9 counterexample: a flat response whose `last` is the truthy but
non-numeric string "abc" is accepted — the fetch returns it AND stores
it in the cache, although that `last` is not parseable as a (positive)
number.  This refutes the claim that every cached or returned snapshot
has a `last` parseable as a positive number. -/
theorem c9_counterexample_nonnumeric_last_cached :
    (get_ticker_data netBadFlat [] 0 "btcidr").1 = some badFlatBody
      ∧ (get_ticker_data netBadFlat [] 0 "btcidr").2.1
          = [⟨"btcidr", badFlatBody, 0⟩]
      ∧ parsePyFloat "abc" = none :=
  ⟨rfl, rfl, by decide⟩

theorem tickerLastOk_hasTruthyLast {tv t : JVal} (h : tickerLastOk tv = some t) :
    hasTruthyLast t = true := by
  unfold tickerLastOk at h
  cases tv with
  | jobj fields =>
    dsimp only at h
    cases hf : JVal.getField? (.jobj fields) "last" with
    | some lv =>
      rw [hf] at h
      dsimp only at h
      by_cases htr : pyTruthy lv = true
      · rw [if_pos htr] at h
        cases h
        simp [hasTruthyLast, hf, htr]
      · rw [if_neg htr] at h
        exact Option.noConfusion h
    | none =>
      rw [hf] at h
      exact Option.noConfusion h
  | jnull => exact Option.noConfusion h
  | jbool b => exact Option.noConfusion h
  | jnum q => exact Option.noConfusion h
  | jstr s => exact Option.noConfusion h
  | jarr elems => exact Option.noConfusion h

theorem flatLastOk_hasTruthyLast {d t : JVal} (h : flatLastOk d = some t) :
    hasTruthyLast t = true := by
  unfold flatLastOk at h
  cases hf : JVal.getField? d "last" with
  | some lv =>
    rw [hf] at h
    dsimp only at h
    by_cases htr : pyTruthy lv = true
    · rw [if_pos htr] at h
      cases h
      simp [hasTruthyLast, hf, htr]
    · rw [if_neg htr] at h
      exact Option.noConfusion h
  | none =>
    rw [hf] at h
    exact Option.noConfusion h

theorem extractSnapshot_hasTruthyLast {d t : JVal} (h : extractSnapshot d = some t) :
    hasTruthyLast t = true := by
  unfold extractSnapshot at h
  cases d with
  | jobj fields =>
    dsimp only at h
    cases hf : (fields.find? (fun p => p.1 == "ticker")).map (fun p => p.2) with
    | some tv =>
      rw [hf] at h
      dsimp only at h
      by_cases htr : pyTruthy tv = true
      · rw [if_pos htr] at h
        exact tickerLastOk_hasTruthyLast h
      · rw [if_neg htr] at h
        exact flatLastOk_hasTruthyLast h
    | none =>
      rw [hf] at h
      exact flatLastOk_hasTruthyLast h
  | jnull => exact Option.noConfusion h
  | jbool b => exact Option.noConfusion h
  | jnum q => exact Option.noConfusion h
  | jstr s => exact Option.noConfusion h
  | jarr elems => exact Option.noConfusion h

theorem endpointResult_hasTruthyLast {net : Net} {tmpl pair : String} {t : JVal}
    (h : endpointResult net tmpl pair = some t) : hasTruthyLast t = true := by
  unfold endpointResult at h
  cases hn : net (buildUrl tmpl pair) with
  | failure =>
    rw [hn] at h
    exact Option.noConfusion h
  | success data =>
    rw [hn] at h
    exact extractSnapshot_hasTruthyLast h

theorem cacheGood_put {c : Cache} {now : ℚ} {pair : String} {v : JVal}
    (hc : cacheGood c) (hv : hasTruthyLast v = true) :
    cacheGood (cachePut c now pair v) := by
  intro e he
  unfold cachePut at he
  dsimp only at he
  have he' : e ∈ c.filter (fun x => x.pair != pair) ++ [(⟨pair, v, now⟩ : CacheEntry)] := by
    by_cases hlen : cacheMaxSize
        < (c.filter (fun x => x.pair != pair) ++ [(⟨pair, v, now⟩ : CacheEntry)]).length
    · rw [if_pos hlen] at he
      exact List.mem_of_mem_tail he
    · rwa [if_neg hlen] at he
  rcases List.mem_append.mp he' with hl | hr
  · exact hc e (List.mem_of_mem_filter hl)
  · rw [List.mem_singleton.mp hr]
    exact hv

theorem cacheGood_get {c : Cache} {now : ℚ} {pair : String} {v : JVal}
    (hc : cacheGood c) (h : cacheGet c now pair = some v) :
    hasTruthyLast v = true := by
  unfold cacheGet at h
  cases hf : c.find? (fun e => e.pair == pair && decide (now - e.insertedAt < cacheTTL)) with
  | some e =>
    rw [hf] at h
    cases h
    exact hc e (List.mem_of_find?_eq_some hf)
  | none =>
    rw [hf] at h
    exact Option.noConfusion h

theorem tryEndpoints_good (net : Net) (now : ℚ) (pair : String) (cache : Cache)
    (hc : cacheGood cache) :
    ∀ l : List String,
      (∀ t, (tryEndpoints net now pair cache l).1 = some t → hasTruthyLast t = true)
        ∧ cacheGood (tryEndpoints net now pair cache l).2.1
  | [] => ⟨fun t ht => Option.noConfusion ht, hc⟩
  | tmpl :: rest => by
    cases he : endpointResult net tmpl pair with
    | some snap =>
      constructor
      · intro t ht
        simp only [tryEndpoints, he] at ht
        cases ht
        exact endpointResult_hasTruthyLast he
      · simp only [tryEndpoints, he]
        exact cacheGood_put hc (endpointResult_hasTruthyLast he)
    | none =>
      have ih := tryEndpoints_good net now pair cache hc rest
      constructor
      · intro t ht
        simp only [tryEndpoints, he] at ht
        exact ih.1 t ht
      · simp only [tryEndpoints, he]
        exact ih.2

/-- C9 amended: every snapshot get_ticker_data returns has a present,
TRUTHY `last` field, and the invariant that every cached snapshot has a
truthy `last` is preserved; truthiness (nonempty / nonzero), not
parseability as a positive number, is what the code enforces. -/
theorem c9_amended_truthy_last_invariant (net : Net) (cache : Cache) (now : ℚ)
    (pair : String) (h : cacheGood cache) :
    (∀ t, (get_ticker_data net cache now pair).1 = some t → hasTruthyLast t = true)
      ∧ cacheGood (get_ticker_data net cache now pair).2.1 := by
  unfold get_ticker_data
  by_cases hv : validPair pair
  · rw [hv, if_pos rfl]
    cases hg : cacheGet cache now pair with
    | some v =>
      refine ⟨fun t ht => ?_, h⟩
      cases ht
      exact cacheGood_get h hg
    | none => exact tryEndpoints_good net now pair cache h INDODAX_ENDPOINTS
  · have hv' : validPair pair = false := by
      simpa using hv
    rw [hv', if_neg (by simp)]
    exact ⟨fun t ht => Option.noConfusion ht, h⟩

/-- Witness for C9 amended: empty cache, nested scenario at "btcidr". -/
theorem c9_amended_truthy_last_invariant_witness :
    cacheGood ([] : Cache) ∧ hasTruthyLast nestedTicker = true :=
  have hgood : cacheGood ([] : Cache) := fun e he => absurd he (List.not_mem_nil e)
  ⟨hgood,
    (c9_amended_truthy_last_invariant netFirstOk [] 0 "btcidr" hgood).1 nestedTicker rfl⟩

/-- C2 counterexample: the /alert command accepts the negative target
"-5" for an allow-listed pair and stores it — the command does not fail
and the registry is changed, refuting the claim that non-positive
targets are rejected with InvalidAlertRequest leaving the registry
unchanged. -/
theorem c2_counterexample_negative_target_accepted :
    alertCommand [] 1 ["btcidr", "-5"]
      = (AlertOutcome.accepted, [(1, ⟨"btcidr", PyFloat.finite (-5)⟩)]) := by
  decide

/-- C2 amended: the /alert command rejects the target only when float()
parsing fails (reply "Harga harus berupa angka"), leaving the registry
unchanged; every parseable target — including zero, negative, nan and
inf — is accepted and stored via dict assignment.  No finiteness or
positivity check is performed. -/
theorem c2_amended_only_parse_is_checked (reg : AlertReg) (uid : ℕ) (pair tstr : String)
    (hv : validPair pair = true) (hl : strToLower pair = pair) :
    (parsePyFloat tstr = none →
        alertCommand reg uid [pair, tstr] = (.notANumberReply, reg))
      ∧ ∀ t, parsePyFloat tstr = some t →
          alertCommand reg uid [pair, tstr] = (.accepted, regSet reg uid ⟨pair, t⟩) := by
  constructor
  · intro hp
    simp [alertCommand, hl, hv, hp]
  · intro t hp
    simp [alertCommand, hl, hv, hp]

/-- Witness for C2 amended: target "-5" parses and is stored. -/
theorem c2_amended_only_parse_is_checked_witness :
    validPair "btcidr" = true ∧ strToLower "btcidr" = "btcidr" ∧
      parsePyFloat "-5" = some (PyFloat.finite (-5)) ∧
      alertCommand [] 1 ["btcidr", "-5"]
        = (AlertOutcome.accepted, regSet [] 1 ⟨"btcidr", PyFloat.finite (-5)⟩) :=
  ⟨by decide, by decide, by decide,
    (c2_amended_only_parse_is_checked [] 1 "btcidr" "-5" (by decide) (by decide)).2
      (PyFloat.finite (-5)) (by decide)⟩

theorem regSet_keys_mem : ∀ (reg : AlertReg) (uid : ℕ) (sub : Subscription) (x : ℕ),
    x ∈ (regSet reg uid sub).map Prod.fst → x ∈ reg.map Prod.fst ∨ x = uid
  | [], _, _, x => by
    intro h
    simp [regSet] at h
    exact Or.inr h
  | e :: rest, uid, sub, x => by
    intro h
    by_cases he : (e.1 == uid) = true
    · simp only [regSet, if_pos he, List.map_cons, List.mem_cons] at h
      rcases h with h | h
      · exact Or.inr h
      · exact Or.inl (by simp [List.mem_cons]; right; simpa using h)
    · simp only [regSet, if_neg he, List.map_cons, List.mem_cons] at h
      rcases h with h | h
      · exact Or.inl (by simp [h])
      · rcases regSet_keys_mem rest uid sub x h with h2 | h2
        · exact Or.inl (by simp [List.mem_cons]; right; simpa using h2)
        · exact Or.inr h2

theorem regSet_keys_unique : ∀ (reg : AlertReg) (uid : ℕ) (sub : Subscription),
    regKeysUnique reg → regKeysUnique (regSet reg uid sub)
  | [], uid, sub, _ => by simp [regSet, regKeysUnique]
  | e :: rest, uid, sub, h => by
    rw [regKeysUnique, List.map_cons, List.nodup_cons] at h
    by_cases he : (e.1 == uid) = true
    · have heq : e.1 = uid := by simpa using he
      rw [regKeysUnique, regSet, if_pos he, List.map_cons, List.nodup_cons]
      exact ⟨heq ▸ h.1, h.2⟩
    · rw [regKeysUnique, regSet, if_neg he, List.map_cons, List.nodup_cons]
      refine ⟨fun hmem => ?_, regSet_keys_unique rest uid sub h.2⟩
      rcases regSet_keys_mem rest uid sub e.1 hmem with h2 | h2
      · exact h.1 h2
      · exact he (by simp [h2])

theorem regSet_filter_self : ∀ (reg : AlertReg) (uid : ℕ) (sub : Subscription),
    regKeysUnique reg →
      (regSet reg uid sub).filter (fun e => e.1 == uid) = [(uid, sub)]
  | [], uid, sub, _ => by simp [regSet]
  | e :: rest, uid, sub, h => by
    rw [regKeysUnique, List.map_cons, List.nodup_cons] at h
    by_cases he : (e.1 == uid) = true
    · have heq : e.1 = uid := by simpa using he
      rw [regSet, if_pos he]
      have hrest : rest.filter (fun e => e.1 == uid) = [] := by
        rw [List.filter_eq_nil_iff]
        intro x hx hpx
        have : x.1 = uid := by simpa using hpx
        exact h.1 (heq ▸ this ▸ List.mem_map_of_mem Prod.fst hx)
      simp [List.filter_cons, hrest]
    · rw [regSet, if_neg he]
      rw [List.filter_cons_of_neg (by simpa using he)]
      exact regSet_filter_self rest uid sub h.2

theorem regSet_filter_other : ∀ (reg : AlertReg) (uid : ℕ) (sub : Subscription)
    (uid' : ℕ), uid' ≠ uid →
      (regSet reg uid sub).filter (fun e => e.1 == uid')
        = reg.filter (fun e => e.1 == uid')
  | [], uid, sub, uid', hne => by
    simp [regSet, List.filter_cons]
    intro hx
    exact absurd hx.symm hne
  | e :: rest, uid, sub, uid', hne => by
    by_cases he : (e.1 == uid) = true
    · have heq : e.1 = uid := by simpa using he
      rw [regSet, if_pos he, List.filter_cons_of_neg (by simpa using hne.symm),
        List.filter_cons_of_neg (by simp [heq]; exact fun hx => absurd hx.symm hne)]
    · rw [regSet, if_neg he, List.filter_cons, List.filter_cons]
      rw [regSet_filter_other rest uid sub uid' hne]

/-- C10: the registry keeps at most one subscription per subscriber:
setting an alert preserves key uniqueness, afterwards the subscriber's
only entry is the newly stored pair/target (the prior one is silently
replaced), and every other subscriber's entries are untouched. -/
theorem c10_one_subscription_per_subscriber (reg : AlertReg) (uid : ℕ)
    (sub : Subscription) (h : regKeysUnique reg) :
    regKeysUnique (regSet reg uid sub)
      ∧ (regSet reg uid sub).filter (fun e => e.1 == uid) = [(uid, sub)]
      ∧ ∀ uid', uid' ≠ uid →
          (regSet reg uid sub).filter (fun e => e.1 == uid')
            = reg.filter (fun e => e.1 == uid') :=
  ⟨regSet_keys_unique reg uid sub h,
   regSet_filter_self reg uid sub h,
   fun uid' hne => regSet_filter_other reg uid sub uid' hne⟩

/-- Witness for C10: overwriting subscriber 1's btcidr alert with an
ethidr alert leaves exactly the new entry for subscriber 1. -/
theorem c10_one_subscription_per_subscriber_witness :
    regKeysUnique [(1, (⟨"btcidr", PyFloat.finite 5⟩ : Subscription))] ∧
      (regSet [(1, ⟨"btcidr", PyFloat.finite 5⟩)] 1 ⟨"ethidr", PyFloat.finite 7⟩).filter
          (fun e => e.1 == 1)
        = [(1, ⟨"ethidr", PyFloat.finite 7⟩)] :=
  ⟨by simp [regKeysUnique],
    (c10_one_subscription_per_subscriber [(1, ⟨"btcidr", PyFloat.finite 5⟩)] 1
      ⟨"ethidr", PyFloat.finite 7⟩ (by simp [regKeysUnique])).2.1⟩

/-- C4 counterexample: two subscribers on the same pair under a network
where every endpoint fails: one evaluator cycle invokes the Ticker
Fetcher twice for that single distinct pair and issues the three
endpoint requests twice (six requests) — the failing fetch IS retried
within the cycle, refuting the at-most-once-per-distinct-pair claim.
The subscriptions are correctly retained. -/
theorem c4_counterexample_refetch_same_pair :
    ((check_alerts netAllFail
          [(1, ⟨"btcidr", PyFloat.finite 5⟩), (2, ⟨"btcidr", PyFloat.finite 7⟩)]
          [] 0).2.2).countP isFetchCall = 2
      ∧ ((check_alerts netAllFail
          [(1, ⟨"btcidr", PyFloat.finite 5⟩), (2, ⟨"btcidr", PyFloat.finite 7⟩)]
          [] 0).2.2).countP isRequest = 6
      ∧ (check_alerts netAllFail
          [(1, ⟨"btcidr", PyFloat.finite 5⟩), (2, ⟨"btcidr", PyFloat.finite 7⟩)]
          [] 0).1
        = [(1, ⟨"btcidr", PyFloat.finite 5⟩), (2, ⟨"btcidr", PyFloat.finite 7⟩)] := by
  decide

theorem countP_map_request_fetchCall (urls : List String) :
    (urls.map BotEvent.request).countP isFetchCall = 0 := by
  rw [List.countP_eq_zero]
  intro e he
  obtain ⟨u, _, rfl⟩ := List.mem_map.mp he
  simp [isFetchCall]

theorem checkAlertsAux_fetchCall_count (net : Net) (now : ℚ) :
    ∀ (l : List (ℕ × Subscription)) (reg : AlertReg) (cache : Cache),
      ((checkAlertsAux net now l reg cache).2.2).countP isFetchCall = l.length
  | [], _, _ => rfl
  | (uid, sub) :: rest, reg, cache => by
    by_cases hs : (stepOutcome net now cache sub).1 = true
    · simp only [checkAlertsAux, if_pos hs]
      simp [List.countP_cons, List.countP_append, isFetchCall,
        countP_map_request_fetchCall,
        checkAlertsAux_fetchCall_count net now rest]
    · simp only [checkAlertsAux, if_neg hs]
      simp [List.countP_cons, List.countP_append, isFetchCall,
        countP_map_request_fetchCall,
        checkAlertsAux_fetchCall_count net now rest]

theorem regHas_remove_ne (reg : AlertReg) (uid uid' : ℕ)
    (h : regHas reg uid = true) (hne : uid ≠ uid') :
    regHas (regRemove reg uid') uid = true := by
  simp only [regHas, regRemove, List.any_eq_true] at h ⊢
  obtain ⟨e, he, hk⟩ := h
  refine ⟨e, List.mem_filter.mpr ⟨he, ?_⟩, hk⟩
  have h3 : e.1 = uid := by simpa using hk
  simp only [h3, bne_iff_ne, ne_eq, decide_eq_true_eq]
  exact hne

theorem checkAlertsAux_removed_only_if_notified (net : Net) (now : ℚ) :
    ∀ (l : List (ℕ × Subscription)) (reg : AlertReg) (cache : Cache) (uid : ℕ),
      regHas reg uid = true →
      regHas (checkAlertsAux net now l reg cache).1 uid = false →
      ∃ p, BotEvent.notify uid p ∈ (checkAlertsAux net now l reg cache).2.2
  | [], reg, cache, uid => by
    intro h1 h2
    simp only [checkAlertsAux] at h2
    rw [h1] at h2
    exact Bool.noConfusion h2
  | (uid', sub) :: rest, reg, cache, uid => by
    intro h1 h2
    by_cases hs : (stepOutcome net now cache sub).1 = true
    · simp only [checkAlertsAux, if_pos hs] at h2 ⊢
      by_cases hu : uid' = uid
      · subst hu
        exact ⟨sub.pair, by simp⟩
      · have hkeep : regHas (regRemove reg uid') uid = true :=
          regHas_remove_ne reg uid uid' h1 (fun hx => hu hx.symm)
        obtain ⟨p, hp⟩ := checkAlertsAux_removed_only_if_notified net now rest
          (regRemove reg uid') (stepOutcome net now cache sub).2.1 uid hkeep h2
        exact ⟨p, by simp [hp]⟩
    · simp only [checkAlertsAux, if_neg hs] at h2 ⊢
      obtain ⟨p, hp⟩ := checkAlertsAux_removed_only_if_notified net now rest
        reg (stepOutcome net now cache sub).2.1 uid h1 h2
      exact ⟨p, by simp [hp]⟩

/-- C4 amended: the evaluator invokes the Ticker Fetcher once per
SUBSCRIPTION, not once per distinct pair — the event trace carries
exactly one fetcher invocation per registry entry (so a pair shared by
several subscribers is re-fetched per subscriber; only a success is
deduplicated by the cache within the cycle, a failing fetch is
retried); and a subscription is removed during a cycle only if its
subscriber was notified — pairs whose fetch fails are skipped with
their subscriptions retained. -/
theorem c4_amended_fetch_per_subscription (net : Net) (reg : AlertReg)
    (cache : Cache) (now : ℚ) :
    ((check_alerts net reg cache now).2.2).countP isFetchCall = reg.length
      ∧ ∀ uid, regHas reg uid = true →
          regHas (check_alerts net reg cache now).1 uid = false →
          ∃ p, BotEvent.notify uid p ∈ (check_alerts net reg cache now).2.2 :=
  ⟨checkAlertsAux_fetchCall_count net now reg reg cache,
    fun uid h1 h2 =>
      checkAlertsAux_removed_only_if_notified net now reg reg cache uid h1 h2⟩

/-- Witness for C4 amended: a triggered subscriber is removed and was
indeed notified. -/
theorem c4_amended_fetch_per_subscription_witness :
    regHas [(1, (⟨"btcidr", PyFloat.finite 1000000⟩ : Subscription))] 1 = true ∧
      regHas (check_alerts netFirstOk
          [(1, ⟨"btcidr", PyFloat.finite 1000000⟩)] [] 0).1 1 = false ∧
      ∃ p, BotEvent.notify 1 p
        ∈ (check_alerts netFirstOk [(1, ⟨"btcidr", PyFloat.finite 1000000⟩)] [] 0).2.2 :=
  ⟨by decide, by decide,
    (c4_amended_fetch_per_subscription netFirstOk
        [(1, ⟨"btcidr", PyFloat.finite 1000000⟩)] [] 0).2 1 (by decide) (by decide)⟩

/-- C3 counterexample: in a triggering run the notification dispatch
event occurs strictly BEFORE the subscription-removal event (the source
awaits send_message and only then executes del), refuting the claim
that removal happens before or atomically with dispatch. -/
theorem c3_counterexample_dispatch_precedes_removal :
    (check_alerts netFirstOk [(1, ⟨"btcidr", PyFloat.finite 1000000⟩)] [] 0).2.2
        = [BotEvent.fetchCall "btcidr",
           BotEvent.request "https://indodax.com/api/ticker",
           BotEvent.notify 1 "btcidr", BotEvent.removeSub 1]
      ∧ List.indexOf (BotEvent.notify 1 "btcidr")
            (check_alerts netFirstOk [(1, ⟨"btcidr", PyFloat.finite 1000000⟩)] [] 0).2.2
          < List.indexOf (BotEvent.removeSub 1)
            (check_alerts netFirstOk [(1, ⟨"btcidr", PyFloat.finite 1000000⟩)] [] 0).2.2 := by
  decide

theorem countP_map_request_notify (urls : List String) (uid : ℕ) :
    (urls.map BotEvent.request).countP (isNotifyFor uid) = 0 := by
  rw [List.countP_eq_zero]
  intro e he
  obtain ⟨u, _, rfl⟩ := List.mem_map.mp he
  simp [isNotifyFor]

theorem checkAlertsAux_notifyCount_le (net : Net) (now : ℚ) :
    ∀ (l : List (ℕ × Subscription)) (reg : AlertReg) (cache : Cache) (uid : ℕ),
      notifyCount (checkAlertsAux net now l reg cache).2.2 uid
        ≤ l.countP (fun e => e.1 == uid)
  | [], _, _, _ => by simp [checkAlertsAux, notifyCount]
  | (uid', sub) :: rest, reg, cache, uid => by
    have h0 := countP_map_request_notify (stepOutcome net now cache sub).2.2 uid
    by_cases hs : (stepOutcome net now cache sub).1 = true
    · have ih := checkAlertsAux_notifyCount_le net now rest (regRemove reg uid')
        (stepOutcome net now cache sub).2.1 uid
      simp only [checkAlertsAux, if_pos hs]
      simp only [notifyCount, List.cons_append, List.countP_cons, List.countP_append,
        h0] at ih ⊢
      by_cases hu : (uid' == uid) = true
      · simp [isNotifyFor, hu]
        omega
      · simp [isNotifyFor, hu]
        omega
    · have ih := checkAlertsAux_notifyCount_le net now rest reg
        (stepOutcome net now cache sub).2.1 uid
      simp only [checkAlertsAux, if_neg hs]
      simp only [notifyCount, List.cons_append, List.countP_cons, List.countP_append,
        h0] at ih ⊢
      simp [isNotifyFor]
      omega

theorem regHas_remove_self (reg : AlertReg) (uid : ℕ) :
    regHas (regRemove reg uid) uid = false := by
  simp only [regHas, regRemove, List.any_eq_false]
  intro e he
  have h2 := (List.mem_filter.mp he).2
  simp only [bne_iff_ne, ne_eq, decide_eq_true_eq] at h2
  simp [h2]

theorem regHas_remove_false (reg : AlertReg) (uid uid' : ℕ)
    (h : regHas reg uid = false) : regHas (regRemove reg uid') uid = false := by
  simp only [regHas, regRemove, List.any_eq_false] at h ⊢
  intro e he
  exact h e (List.mem_filter.mp he).1

theorem checkAlertsAux_preserves_absent (net : Net) (now : ℚ) :
    ∀ (l : List (ℕ × Subscription)) (reg : AlertReg) (cache : Cache) (uid : ℕ),
      regHas reg uid = false →
      regHas (checkAlertsAux net now l reg cache).1 uid = false
  | [], reg, cache, uid => fun h => h
  | (uid', sub) :: rest, reg, cache, uid => by
    intro h
    by_cases hs : (stepOutcome net now cache sub).1 = true
    · simp only [checkAlertsAux, if_pos hs]
      exact checkAlertsAux_preserves_absent net now rest (regRemove reg uid')
        (stepOutcome net now cache sub).2.1 uid (regHas_remove_false reg uid uid' h)
    · simp only [checkAlertsAux, if_neg hs]
      exact checkAlertsAux_preserves_absent net now rest reg
        (stepOutcome net now cache sub).2.1 uid h

theorem checkAlertsAux_notified_removed (net : Net) (now : ℚ) :
    ∀ (l : List (ℕ × Subscription)) (reg : AlertReg) (cache : Cache) (uid : ℕ)
      (p : String),
      BotEvent.notify uid p ∈ (checkAlertsAux net now l reg cache).2.2 →
      regHas (checkAlertsAux net now l reg cache).1 uid = false
  | [], reg, cache, uid, p => by
    intro hmem
    simp [checkAlertsAux] at hmem
  | (uid', sub) :: rest, reg, cache, uid, p => by
    intro hmem
    by_cases hs : (stepOutcome net now cache sub).1 = true
    · simp only [checkAlertsAux, if_pos hs] at hmem ⊢
      by_cases hu : uid' = uid
      · subst hu
        exact checkAlertsAux_preserves_absent net now rest (regRemove reg uid')
          (stepOutcome net now cache sub).2.1 uid' (regHas_remove_self reg uid')
      · have hmem' : BotEvent.notify uid p
            ∈ (checkAlertsAux net now rest (regRemove reg uid')
                (stepOutcome net now cache sub).2.1).2.2 := by
          simp only [List.cons_append, List.mem_cons, List.mem_append] at hmem
          rcases hmem with h1 | h1
          · exact absurd h1 (by simp)
          · rcases h1 with h1 | h1
            · obtain ⟨u, _, hu2⟩ := List.mem_map.mp h1
              exact absurd hu2 (by simp)
            · rcases h1 with h1 | h1
              · injection h1 with h2 h3
                exact absurd h2.symm hu
              · rcases h1 with h1 | h1
                · exact absurd h1 (by simp)
                · exact h1
        exact checkAlertsAux_notified_removed net now rest (regRemove reg uid')
          (stepOutcome net now cache sub).2.1 uid p hmem'
    · simp only [checkAlertsAux, if_neg hs] at hmem ⊢
      have hmem' : BotEvent.notify uid p
          ∈ (checkAlertsAux net now rest reg (stepOutcome net now cache sub).2.1).2.2 := by
        simp only [List.cons_append, List.mem_cons, List.mem_append] at hmem
        rcases hmem with h1 | h1
        · exact absurd h1 (by simp)
        · rcases h1 with h1 | h1
          · obtain ⟨u, _, hu2⟩ := List.mem_map.mp h1
            exact absurd hu2 (by simp)
          · exact h1
      exact checkAlertsAux_notified_removed net now rest reg
        (stepOutcome net now cache sub).2.1 uid p hmem'

theorem checkAlertsAux_notify_followed_by_removal (net : Net) (now : ℚ) :
    ∀ (l : List (ℕ × Subscription)) (reg : AlertReg) (cache : Cache) (uid : ℕ)
      (p : String),
      BotEvent.notify uid p ∈ (checkAlertsAux net now l reg cache).2.2 →
      ∃ pre post, (checkAlertsAux net now l reg cache).2.2
        = pre ++ BotEvent.notify uid p :: BotEvent.removeSub uid :: post
  | [], reg, cache, uid, p => by
    intro hmem
    simp [checkAlertsAux] at hmem
  | (uid', sub) :: rest, reg, cache, uid, p => by
    intro hmem
    by_cases hs : (stepOutcome net now cache sub).1 = true
    · simp only [checkAlertsAux, if_pos hs] at hmem ⊢
      simp only [List.cons_append, List.mem_cons, List.mem_append] at hmem
      rcases hmem with h1 | h1
      · exact absurd h1 (by simp)
      · rcases h1 with h1 | h1
        · obtain ⟨u, _, hu2⟩ := List.mem_map.mp h1
          exact absurd hu2 (by simp)
        · rcases h1 with h1 | h1
          · obtain ⟨h2, h3⟩ : uid = uid' ∧ p = sub.pair := by
              cases h1
              exact ⟨rfl, rfl⟩
            subst h2
            subst h3
            exact ⟨BotEvent.fetchCall sub.pair
                :: (stepOutcome net now cache sub).2.2.map BotEvent.request,
              (checkAlertsAux net now rest (regRemove reg uid)
                (stepOutcome net now cache sub).2.1).2.2, by simp⟩
          · rcases h1 with h1 | h1
            · exact absurd h1 (by simp)
            · obtain ⟨pre, post, hpp⟩ :=
                checkAlertsAux_notify_followed_by_removal net now rest
                  (regRemove reg uid') (stepOutcome net now cache sub).2.1 uid p h1
              exact ⟨BotEvent.fetchCall sub.pair
                  :: ((stepOutcome net now cache sub).2.2.map BotEvent.request
                    ++ BotEvent.notify uid' sub.pair :: BotEvent.removeSub uid' :: pre),
                post, by simp [hpp]⟩
    · simp only [checkAlertsAux, if_neg hs] at hmem ⊢
      simp only [List.cons_append, List.mem_cons, List.mem_append] at hmem
      rcases hmem with h1 | h1
      · exact absurd h1 (by simp)
      · rcases h1 with h1 | h1
        · obtain ⟨u, _, hu2⟩ := List.mem_map.mp h1
          exact absurd hu2 (by simp)
        · obtain ⟨pre, post, hpp⟩ :=
            checkAlertsAux_notify_followed_by_removal net now rest reg
              (stepOutcome net now cache sub).2.1 uid p h1
          exact ⟨BotEvent.fetchCall sub.pair
              :: ((stepOutcome net now cache sub).2.2.map BotEvent.request ++ pre),
            post, by simp [hpp]⟩

theorem checkAlertsAux_cache_indep (net : Net) (now : ℚ) :
    ∀ (l : List (ℕ × Subscription)) (reg reg' : AlertReg) (cache : Cache),
      (checkAlertsAux net now l reg cache).2.1
        = (checkAlertsAux net now l reg' cache).2.1
  | [], _, _, _ => rfl
  | (uid, sub) :: rest, reg, reg', cache => by
    by_cases hs : (stepOutcome net now cache sub).1 = true
    · simp only [checkAlertsAux, if_pos hs]
      exact checkAlertsAux_cache_indep net now rest (regRemove reg uid)
        (regRemove reg' uid) (stepOutcome net now cache sub).2.1
    · simp only [checkAlertsAux, if_neg hs]
      exact checkAlertsAux_cache_indep net now rest reg reg'
        (stepOutcome net now cache sub).2.1

theorem checkAlertsAux_trigger_notifies (net : Net) (now : ℚ) :
    ∀ (pre : List (ℕ × Subscription)) (uid : ℕ) (sub : Subscription)
      (post : List (ℕ × Subscription)) (reg : AlertReg) (cache : Cache),
      (stepOutcome net now (checkAlertsAux net now pre reg cache).2.1 sub).1 = true →
      BotEvent.notify uid sub.pair
        ∈ (checkAlertsAux net now (pre ++ (uid, sub) :: post) reg cache).2.2
  | [], uid, sub, post, reg, cache => by
    intro hs
    have hs' : (stepOutcome net now cache sub).1 = true := hs
    simp only [List.nil_append, checkAlertsAux, if_pos hs']
    simp
  | (uid', sub') :: pre', uid, sub, post, reg, cache => by
    intro hs
    by_cases hstep : (stepOutcome net now cache sub').1 = true
    · have hs' : (stepOutcome net now
          (checkAlertsAux net now pre' (regRemove reg uid')
            (stepOutcome net now cache sub').2.1).2.1 sub).1 = true := by
        rw [show (checkAlertsAux net now ((uid', sub') :: pre') reg cache).2.1
            = (checkAlertsAux net now pre' (regRemove reg uid')
                (stepOutcome net now cache sub').2.1).2.1 by
          simp only [checkAlertsAux, if_pos hstep]] at hs
        exact hs
      have ih := checkAlertsAux_trigger_notifies net now pre' uid sub post
        (regRemove reg uid') (stepOutcome net now cache sub').2.1 hs'
      simp only [List.cons_append, checkAlertsAux, if_pos hstep]
      simp [ih]
    · have hs' : (stepOutcome net now
          (checkAlertsAux net now pre' reg
            (stepOutcome net now cache sub').2.1).2.1 sub).1 = true := by
        rw [show (checkAlertsAux net now ((uid', sub') :: pre') reg cache).2.1
            = (checkAlertsAux net now pre' reg
                (stepOutcome net now cache sub').2.1).2.1 by
          simp only [checkAlertsAux, if_neg hstep]] at hs
        exact hs
      have ih := checkAlertsAux_trigger_notifies net now pre' uid sub post
        reg (stepOutcome net now cache sub').2.1 hs'
      simp only [List.cons_append, checkAlertsAux, if_neg hstep]
      simp [ih]

theorem countKey_eq_zero_of_absent (reg : AlertReg) (uid : ℕ)
    (h : regHas reg uid = false) : reg.countP (fun e => e.1 == uid) = 0 := by
  rw [List.countP_eq_zero]
  simp only [regHas, List.any_eq_false] at h
  exact h

theorem countKey_le_one_of_unique (reg : AlertReg) (uid : ℕ)
    (h : regKeysUnique reg) : reg.countP (fun e => e.1 == uid) ≤ 1 := by
  have h2 : reg.countP (fun e => e.1 == uid)
      = (reg.map Prod.fst).count uid := by
    rw [List.count, List.countP_map]
    rfl
  rw [h2]
  exact List.nodup_iff_count_le_one.mp h uid

/-- C3 amended: one evaluator run sends at most one notification per
subscriber; a subscription whose step triggers when its turn comes
(successful fetch with last at or above target) is notified; and
whenever a notification to a subscriber appears in the trace, the
removal event follows IMMEDIATELY AFTER the dispatch event (not before
or atomically with it), the subscriber is absent from the registry when
the run ends, and a second evaluator run from the resulting state emits
zero further notifications to that subscriber. -/
theorem c3_amended_notify_then_remove (net : Net) (reg : AlertReg) (cache : Cache)
    (now : ℚ) (uid : ℕ) (h : regKeysUnique reg) :
    notifyCount (check_alerts net reg cache now).2.2 uid ≤ 1
      ∧ (∀ pre sub post, reg = pre ++ (uid, sub) :: post →
          (stepOutcome net now (checkAlertsAux net now pre reg cache).2.1 sub).1 = true →
          BotEvent.notify uid sub.pair ∈ (check_alerts net reg cache now).2.2)
      ∧ ∀ p, BotEvent.notify uid p ∈ (check_alerts net reg cache now).2.2 →
          (∃ pre post, (check_alerts net reg cache now).2.2
              = pre ++ BotEvent.notify uid p :: BotEvent.removeSub uid :: post)
            ∧ regHas (check_alerts net reg cache now).1 uid = false
            ∧ notifyCount (check_alerts net (check_alerts net reg cache now).1
                  (check_alerts net reg cache now).2.1 now).2.2 uid = 0 := by
  refine ⟨?_, ?_, ?_⟩
  · exact le_trans (checkAlertsAux_notifyCount_le net now reg reg cache uid)
      (countKey_le_one_of_unique reg uid h)
  · intro pre sub post hsplit hs
    have h2 := checkAlertsAux_trigger_notifies net now pre uid sub post reg cache hs
    rw [hsplit] at h2
    show BotEvent.notify uid sub.pair ∈ (checkAlertsAux net now reg reg cache).2.2
    rw [hsplit]
    exact h2
  · intro p hmem
    have habs : regHas (check_alerts net reg cache now).1 uid = false :=
      checkAlertsAux_notified_removed net now reg reg cache uid p hmem
    refine ⟨checkAlertsAux_notify_followed_by_removal net now reg reg cache uid p hmem,
      habs, ?_⟩
    have hz := countKey_eq_zero_of_absent (check_alerts net reg cache now).1 uid habs
    have hb := checkAlertsAux_notifyCount_le net now (check_alerts net reg cache now).1
      (check_alerts net reg cache now).1 (check_alerts net reg cache now).2.1 uid
    rw [hz] at hb
    exact Nat.le_zero.mp hb

/-- Witness for C3 amended: the single-subscriber triggering scenario. -/
theorem c3_amended_notify_then_remove_witness :
    regKeysUnique [(1, (⟨"btcidr", PyFloat.finite 1000000⟩ : Subscription))] ∧
      BotEvent.notify 1 "btcidr"
        ∈ (check_alerts netFirstOk [(1, ⟨"btcidr", PyFloat.finite 1000000⟩)] [] 0).2.2 ∧
      regHas (check_alerts netFirstOk
          [(1, ⟨"btcidr", PyFloat.finite 1000000⟩)] [] 0).1 1 = false ∧
      notifyCount (check_alerts netFirstOk
          (check_alerts netFirstOk [(1, ⟨"btcidr", PyFloat.finite 1000000⟩)] [] 0).1
          (check_alerts netFirstOk [(1, ⟨"btcidr", PyFloat.finite 1000000⟩)] [] 0).2.1
          0).2.2 1 = 0 :=
  have h := c3_amended_notify_then_remove netFirstOk
    [(1, ⟨"btcidr", PyFloat.finite 1000000⟩)] [] 0 1 (by simp [regKeysUnique])
  have hmem : BotEvent.notify 1 "btcidr"
      ∈ (check_alerts netFirstOk [(1, ⟨"btcidr", PyFloat.finite 1000000⟩)] [] 0).2.2 :=
    h.2.1 [] ⟨"btcidr", PyFloat.finite 1000000⟩ [] rfl (by decide)
  ⟨by simp [regKeysUnique], hmem,
    (h.2.2 "btcidr" hmem).2.1, (h.2.2 "btcidr" hmem).2.2⟩

end Saori
